import Mathlib

/-!
Verification development for the `hue-entertainment-pykit` repository.

Each definition is a shallow embedding of the Python code it is named after
(file and function are cited in the doc comment).  Machine integers are
modelled as `Nat`/`Int`; Python `float` arithmetic in the colour converter is
modelled exactly over `ℚ` (for every input in the domains the claims quantify
over, IEEE-double evaluation of the source expressions agrees with the exact
rational value, so the embedding is extensionally faithful there).  Byte
strings are modelled as `List ℕ` with each element in `[0, 256)`.
-/

namespace HuePykit

/-! ## Colour conversion — `src/src/utils/converter.py` (`Converter`) -/

/-- Python `int(q)` on a real number: truncation toward zero.
Models the `int(...)` calls in `Converter`. -/
def pyTrunc (q : ℚ) : ℤ :=
  if 0 ≤ q then ⌊q⌋ else -⌊-q⌋

/-- Embeds `Converter._normalize_rgb` applied to one component: `value / 255.0`. -/
def normalizeRgb (q : ℚ) : ℚ := q / 255

/-- Embeds `Converter.rgb8_to_rgb16`: `int(value * 65535)` for each normalised
component. -/
def rgb8_to_rgb16 (c : ℚ × ℚ × ℚ) : ℤ × ℤ × ℤ :=
  (pyTrunc (normalizeRgb c.1 * 65535),
   pyTrunc (normalizeRgb c.2.1 * 65535),
   pyTrunc (normalizeRgb c.2.2 * 65535))

/-- Python `max(0.0, min(1.0, value))` in `Converter.xyb_to_rgb16`. -/
def clamp01 (q : ℚ) : ℚ := max 0 (min 1 q)

/-- Embeds `Converter.xyb_to_rgb16`: `int(max(0.0, min(1.0, value)) * float(65535))`
for each component. -/
def xyb_to_rgb16 (c : ℚ × ℚ × ℚ) : ℤ × ℤ × ℤ :=
  (pyTrunc (clamp01 c.1 * 65535),
   pyTrunc (clamp01 c.2.1 * 65535),
   pyTrunc (clamp01 c.2.2 * 65535))

/-! ## Wire packing — `struct.pack` calls in the streaming services -/

/-- Models `struct.pack(">H", n)` as a big-endian byte pair.  `struct.pack` raises
for `n ∉ [0, 65536)`; theorems carry that bound as a hypothesis. -/
def be16 (n : ℕ) : List ℕ := [n / 256, n % 256]

/-- The ASCII bytes of a Lean string; models Python `str.encode("utf-8")`
for ASCII strings (all the identifiers involved are ASCII UUIDs). -/
def asciiBytes (s : String) : List ℕ := s.data.map Char.toNat

end HuePykit

namespace HuePykit.PkStreaming

/-!
`src/src/hue_entertainment_pykit/services/streaming_service.py`
(`StreamingService`).  The header fields fixed in `__init__`:
`_protocol_name = b"HueStream"`, `_version = 02 00`, `_sequence_id = 07`,
`_reserved = 00 00`, `_color_space` (one byte), `_reserved2 = 00`,
`_entertainment_id` (UTF-8 of the configuration UUID).
-/

/-- One entry of the processed user-input list handled by
`_process_user_input`: an rgb16 triple followed by the channel id, exactly
the tuple `(r, g, b, light_id)` the code destructures. -/
structure ChannelUpdate where
  r : ℕ
  g : ℕ
  b : ℕ
  lightId : ℕ
deriving DecidableEq, Repr

/-- Embeds `self._protocol_name = "HueStream".encode("utf-8")`. -/
def protocolName : List ℕ := HuePykit.asciiBytes "HueStream"

/-- Embeds `StreamingService._pack_color_data`: `pack(">B", light_id)` followed by
`pack(">HHH", rx, gy, bb)`. -/
def packColorData (u : ChannelUpdate) : List ℕ :=
  [u.lightId] ++ HuePykit.be16 u.r ++ HuePykit.be16 u.g ++ HuePykit.be16 u.b

/-- Embeds `StreamingService._build_message`: the fixed header fields concatenated
with every channel-data entry, in list order. -/
def buildMessage (colorSpace : ℕ) (entId : List ℕ)
    (channelDataList : List (List ℕ)) : List ℕ :=
  protocolName ++ [0x02, 0x00] ++ [0x07] ++ [0x00, 0x00] ++ [colorSpace]
    ++ [0x00] ++ entId ++ channelDataList.flatten

/-- The datagrams sent by one `_process_user_input` call on a frame (the
queue item enqueued by one `set_input` call): the code packs every tuple,
builds one message and performs a single `sendto`. -/
def processUserInputSends (colorSpace : ℕ) (entId : List ℕ)
    (frame : List ChannelUpdate) : List (List ℕ) :=
  [buildMessage colorSpace entId (frame.map packColorData)]

/-- The claimed shape of the one datagram serialised for a frame: total
length `52 + 7·N`; ASCII `"HueStream"` at offsets 0–8; `02 00` version;
`07` sequence id; `00 00` reserved; the session colour-space byte at
offset 14; `00` reserved; the 36 UUID bytes at offsets 16–51; then one
7-byte record per channel — channel id, then three big-endian u16 values —
in submission order. -/
def FrameDatagramSpec (cs : ℕ) (entId : List ℕ)
    (frame : List ChannelUpdate) : Prop :=
  ∃ d : List ℕ,
    processUserInputSends cs entId frame = [d] ∧
    d.length = 52 + 7 * frame.length ∧
    d.take 9 = HuePykit.asciiBytes "HueStream" ∧
    d[9]? = some 0x02 ∧ d[10]? = some 0x00 ∧ d[11]? = some 0x07 ∧
    d[12]? = some 0x00 ∧ d[13]? = some 0x00 ∧
    d[14]? = some cs ∧ d[15]? = some 0x00 ∧
    (d.drop 16).take 36 = entId ∧
    (∀ x ∈ d, x < 256) ∧
    ∀ k, (hk : k < frame.length) →
      (d.drop (52 + 7 * k)).take 7 =
        frame[k].lightId :: (HuePykit.be16 frame[k].r
          ++ HuePykit.be16 frame[k].g ++ HuePykit.be16 frame[k].b)

/-- Embeds `StreamingService._COLOR_SPACE = ["rgb", "xyb"]`. -/
def colorSpaceList : List String := ["rgb", "xyb"]

/-- Python `str.lower`, characterwise (equal to `String.toLower`, but
written as a plain list map so that it evaluates by kernel reduction;
Python and ASCII lowering agree on every string considered here). -/
def pyLower (s : String) : String := ⟨s.data.map Char.toLower⟩

/-- Embeds `StreamingService.set_color_space` (same code in both service
revisions): when `value.lower()` is in `_COLOR_SPACE`, the colour-space
byte becomes `0x00 if value == "rgb" else 0x01`; otherwise `ValueError` is
raised and the byte is unchanged.  Returns the resulting colour-space
byte and `false` when the error was raised. -/
def setColorSpace (value : String) (current : ℕ) : ℕ × Bool :=
  if pyLower value ∈ colorSpaceList then
    (if value = "rgb" then 0x00 else 0x01, true)
  else (current, false)

/-- JSON payloads as association lists (`models/payload.py`, keys to string
values; the only payloads the lifecycle methods build are string-valued). -/
abbrev Payload := List (String × String)

/-- Embeds `EntertainmentConfigurationRepository.put_configuration`
(`src/src/bridge/entertainment_configuration_repository.py`): the request
URL is formed from `payload.get_id()` and `payload.remove_key("id")` strips
the id from the body before the PUT request is sent. -/
def putBody (p : Payload) : Payload := p.filter (fun kv => kv.1 ≠ "id")

/-- Observable actions of the streaming lifecycle methods, in program
order. -/
inductive Ev
  | restPut (body : Payload)
  | handshake (ok : Bool)
  | socketClose
  | workerStart
  | workerJoin
deriving DecidableEq

/-- The lifecycle state the claims mention: `_is_connection_alive` and
whether the two worker threads were started. -/
structure SessionSt where
  alive : Bool
  threadsStarted : Bool
deriving DecidableEq

/-- Session state right after `StreamingService.__init__`. -/
def initSession : SessionSt := ⟨false, false⟩

/-- Embeds `StreamingService.start_stream`: builds the `{"id": …, "action":
"start"}` payload, PUTs it, then runs `do_handshake`.  On handshake
failure the except-block closes the socket, PUTs `{"action": "stop"}`
best-effort and raises `ConnectionException` — `_is_connection_alive` is
never set and the worker threads are not started.  On success the flag is
set and both workers start.  Returns the final state, the ordered event
trace, and whether the exception was raised. -/
def startStream (cfgId : String) (hsOk : Bool) (s : SessionSt) :
    SessionSt × List Ev × Bool :=
  let startEv := Ev.restPut (putBody [("id", cfgId), ("action", "start")])
  if hsOk then
    ({ s with alive := true, threadsStarted := true },
     [startEv, .handshake true, .workerStart, .workerStart], false)
  else
    (s,
     [startEv, .handshake false, .socketClose,
      Ev.restPut (putBody [("id", cfgId), ("action", "stop")])], true)

/-- Embeds `StreamingService.stop_stream`: on an active session, clear the flag,
join both workers, close the DTLS socket and only then PUT
`{"action": "stop"}`; otherwise raise `SocketError`. -/
def stopStream (cfgId : String) (s : SessionSt) : SessionSt × List Ev × Bool :=
  if s.alive then
    ({ s with alive := false },
     [.workerJoin, .workerJoin, .socketClose,
      Ev.restPut (putBody [("id", cfgId), ("action", "stop")])], false)
  else (s, [], true)

end HuePykit.PkStreaming

namespace HuePykit.OldStreaming

/-!
`src/src/services/streaming_service.py` (`StreamingService`), together
with the DTLS transport it owns (`src/src/network/dtls.py`, `Dtls`).
-/

/-- Embeds `StreamingService._is_valid_rgb8`:
`all(0 <= value <= 255 for value in rgb8)` (Python compares ints and
floats uniformly; components are modelled as `ℚ`). -/
def isValidRgb8 (c : ℚ × ℚ × ℚ) : Bool :=
  decide (0 ≤ c.1 ∧ c.1 ≤ 255 ∧ 0 ≤ c.2.1 ∧ c.2.1 ≤ 255
    ∧ 0 ≤ c.2.2 ∧ c.2.2 ≤ 255)

/-- Embeds `StreamingService._is_valid_xyb`:
`all(0.0 <= value <= 1.0 for value in xyb)`. -/
def isValidXyb (c : ℚ × ℚ × ℚ) : Bool :=
  decide (0 ≤ c.1 ∧ c.1 ≤ 1 ∧ 0 ≤ c.2.1 ∧ c.2.1 ≤ 1
    ∧ 0 ≤ c.2.2 ∧ c.2.2 ≤ 1)

/-- The converter dispatch inside `StreamingService._pack_color_data`:
`if self._is_valid_xyb(color): … xyb_to_rgb16 … else: … rgb8_to_rgb16 …`.
The method reads only the colour tuple, never `self._color_space`. -/
def packColorConversion (c : ℚ × ℚ × ℚ) : ℤ × ℤ × ℤ :=
  if isValidXyb c then HuePykit.xyb_to_rgb16 c else HuePykit.rgb8_to_rgb16 c

/-- Embeds `StreamingService._keep_connection_alive`, run against a fake clock
(time in tenths of a second, sends instantaneous): each iteration of the
`while self._is_connection_alive` loop first sends the current
`_last_message` at the current time and then sleeps
`_KEEP_ALIVE_INTERVAL = 9.5 s` (95 tenths).  `lastMsg n` is the value of
`_last_message` the n-th iteration observes; `fuel` bounds the number of
iterations observed. -/
def keepAliveFrom (lastMsg : ℕ → List ℕ) : ℕ → ℕ → ℕ → List (ℕ × List ℕ)
  | _, _, 0 => []
  | t, i, fuel + 1 => (t, lastMsg i) :: keepAliveFrom lastMsg (t + 95) (i + 1) fuel

/-- The keep-alive worker's send trace from thread start (time 0). -/
def keepAliveTrace (lastMsg : ℕ → List ℕ) (fuel : ℕ) : List (ℕ × List ℕ) :=
  keepAliveFrom lastMsg 0 0 fuel

/-- State of `network/dtls.py` `Dtls`: `_dtls_socket` is either `None` or an open
wrapped UDP socket; `sockOpen` records that a socket object exists. -/
structure DtlsSt where
  sockOpen : Bool
deriving DecidableEq

/-- Embeds `Dtls.get_socket`: "Gets or creates the DTLS socket" — when
`_dtls_socket` is falsy it calls `_create_dtls_socket()`, so the returned
value is always a (truthy) socket. -/
def getSocket (_d : DtlsSt) : DtlsSt × Bool := (⟨true⟩, true)

/-- Embeds `Dtls.close_socket`: closes the socket and sets `_dtls_socket = None`. -/
def closeSocket (_d : DtlsSt) : DtlsSt := ⟨false⟩

/-- Embeds `Dtls.do_handshake`: `_create_dtls_socket()` first (so a socket object
exists afterwards), then the wrapped handshake either completes or raises;
in both cases `_dtls_socket` remains set. -/
def handshakeDtls (_d : DtlsSt) : DtlsSt := ⟨true⟩

/-- The session state the socket claims mention: the owned transport,
`_is_connection_alive`, and `_reconnect_attempts`. -/
structure Session where
  dtls : DtlsSt
  alive : Bool
  attempts : ℕ
deriving DecidableEq

/-- A fresh Idle session (`__init__`): no socket, not alive, zero
reconnect attempts. -/
def idleInit : Session := ⟨⟨false⟩, false, 0⟩

/-- Embeds `StreamingService.start_stream` (this revision has no try/except):
REST start, then `do_handshake`; on success `_is_connection_alive := True`
and the workers start; on failure the exception propagates with the socket
left open and the flag still false. -/
def startStreamOld (hsOk : Bool) (s : Session) : Session :=
  if hsOk then { s with dtls := handshakeDtls s.dtls, alive := true }
  else { s with dtls := handshakeDtls s.dtls }

/-- Embeds `StreamingService.stop_stream`: the guard evaluates
`self._dtls_service.get_socket() and self._is_connection_alive` — note
`get_socket()` creates a socket when none exists.  On an active session it
joins the workers, closes the socket and issues the REST stop; otherwise
it raises `SocketError`.  Returns the new state and whether the error was
raised. -/
def stopStreamOld (s : Session) : Session × Bool :=
  let g := getSocket s.dtls
  if g.2 && s.alive then
    ({ s with dtls := closeSocket g.1, alive := false }, false)
  else ({ s with dtls := g.1 }, true)

/-- Socket-level actions recorded by `_attempt_reconnect`. -/
inductive RAct
  | closeSock
  | handshakeAttempt
deriving DecidableEq

/-- Embeds `StreamingService._attempt_reconnect` (identical logic in
`bridge_streaming_service.py` `BridgeStreamingService._attempt_reconnect`):
under the reconnect lock, give up when `_reconnect_attempts >= 3`
(returning without closing the socket or attempting a handshake);
otherwise close the socket and run `do_handshake`, resetting the counter
to 0 on success and incrementing it by 1 on failure. -/
def attemptReconnect (hsOk : Bool) (s : Session) : Session × List RAct :=
  if s.attempts ≥ 3 then (s, [])
  else if hsOk then
    ({ s with dtls := handshakeDtls (closeSocket s.dtls), attempts := 0 },
     [.closeSock, .handshakeAttempt])
  else
    ({ s with
        dtls := handshakeDtls (closeSocket s.dtls)
        attempts := s.attempts + 1 },
     [.closeSock, .handshakeAttempt])

/-- States reachable from a fresh session by the lifecycle operations. -/
inductive Reachable : Session → Prop
  | init : Reachable idleInit
  | start (hsOk : Bool) {s : Session} :
      Reachable s → Reachable (startStreamOld hsOk s)
  | stop {s : Session} : Reachable s → Reachable (stopStreamOld s).1
  | reconnect (hsOk : Bool) {s : Session} :
      Reachable s → Reachable (attemptReconnect hsOk s).1

/-- Folding a sequence of reconnect outcomes through
`_attempt_reconnect`. -/
def runReconnects (outcomes : List Bool) (s : Session) : Session :=
  outcomes.foldl (fun st ok => (attemptReconnect ok st).1) s

end HuePykit.OldStreaming

namespace HuePykit.DtlsHandshake

/-!
`src/src/network/dtls.py`, `Dtls.PatchedTLSWrappedSocket.do_handshake`.
-/

/-- Outcome of one `self._buffer.do_handshake()` call inside the
handshake loop: raise `WantReadError`, raise `WantWriteError`, or advance
the state machine to `HANDSHAKE_OVER`. -/
inductive HsSignal
  | wantRead
  | wantWrite
  | over
deriving DecidableEq

/-- Result of running `do_handshake` against a script of engine signals. -/
structure HsRun where
  flightWrites : ℕ
  retransmissions : ℕ
  failed : Bool
  completed : Bool
deriving DecidableEq

/-- The `while self._handshake_state is not HANDSHAKE_OVER` loop.
`retries` is `self._handshake_retries`.  On `WantReadError` a datagram is
consumed (no counter change).  On `WantWriteError` the outbound flight is
written (`flightWrites + 1`) and the counter incremented; while the
incremented counter is `< 3` the loop sleeps 300 ms and writes the same
flight again (a retransmission); when the incremented counter is `> 3`
the loop raises `DTLSHandshakeException`.  An exhausted script leaves the
handshake pending. -/
def hsLoop (retries writes retrans : ℕ) : List HsSignal → HsRun
  | [] => ⟨writes, retrans, false, false⟩
  | .over :: _ => ⟨writes, retrans, false, true⟩
  | .wantRead :: rest => hsLoop retries writes retrans rest
  | .wantWrite :: rest =>
    if retries + 1 < 3 then
      hsLoop (retries + 1) (writes + 2) (retrans + 1) rest
    else if retries + 1 > 3 then
      ⟨writes + 1, retrans, true, false⟩
    else
      hsLoop (retries + 1) (writes + 1) retrans rest

/-- A full `do_handshake` call (`_handshake_retries` starts at 0 in
`__init__`). -/
def hsRun (script : List HsSignal) : HsRun := hsLoop 0 0 0 script

/-- Number of wants-write signals a script delivers before the handshake
would complete. -/
def wantWritesBeforeOver : List HsSignal → ℕ
  | [] => 0
  | .over :: _ => 0
  | .wantWrite :: rest => wantWritesBeforeOver rest + 1
  | .wantRead :: rest => wantWritesBeforeOver rest

end HuePykit.DtlsHandshake

namespace HuePykit.Discovery

/-!
`src/src/services/discovery_service.py`, `DiscoveryService._is_valid_ip`:
`re.match(pattern, ip_address) is not None` for
`^(?!0\d)(25[0-5]|2[0-4][0-9]|[01]?[0-9][0-9]?)\.` (×3) `…$`.
-/

def isIpDigit (c : Char) : Bool := '0' ≤ c && c ≤ '9'

/-- Decimal value of a digit string. -/
def digitsVal (cs : List Char) : ℕ :=
  cs.foldl (fun a c => 10 * a + (c.toNat - 48)) 0

/-- The language of one octet group,
`(?!0\d)(25[0-5]|2[0-4][0-9]|[01]?[0-9][0-9]?)`: the union of the three
alternatives is the set of 1–3 digit strings whose value is ≤ 255 together
with every 1–2 digit string and the 3-digit strings starting `0`/`1`; the
`(?!0\d)` lookahead removes exactly the strings of length ≥ 2 with a
leading `'0'`.  What remains is: nonempty, all digits, value ≤ 255, no
leading zero (a digit string of value ≤ 255 without a leading zero has at
most 3 digits, so no separate length bound is needed). -/
def isValidOctet (cs : List Char) : Bool :=
  !cs.isEmpty && cs.all isIpDigit && digitsVal cs ≤ 255
    && !(decide (2 ≤ cs.length) && cs.head? == some '0')

/-- Split a character list at the literal `\.` separators. -/
def splitDot : List Char → List (List Char)
  | [] => [[]]
  | c :: rest =>
    if c = '.' then [] :: splitDot rest
    else
      match splitDot rest with
      | [] => [[c]]
      | p :: ps => (c :: p) :: ps

/-- Whole-pattern match (before `$`-handling): exactly four octet groups
joined by literal dots.  The octet patterns consume only digits and the
three `\.` consume the dots, so a match decomposes the string at its dot
positions. -/
def isDottedQuadChars (cs : List Char) : Bool :=
  (splitDot cs).length = 4 && (splitDot cs).all isValidOctet

/-- Python `$` (no `re.MULTILINE`) matches at the end of the string or
just before one final newline, so the anchored pattern accepts `s` iff it
accepts `s` with at most one trailing `'\n'` removed. -/
def stripFinalNewline (cs : List Char) : List Char :=
  if cs.getLast? = some '\n' then cs.dropLast else cs

/-- Embeds `DiscoveryService._is_valid_ip`. -/
def isValidIp (s : String) : Bool :=
  isDottedQuadChars (stripFinalNewline s.data)

/-- Modelled from the claim's words, for comparison: a dotted quad of
exactly four octets, each an integer string in `[0, 255]` with no leading
zeros, and nothing else (no trailing characters). -/
def specDottedQuad (s : String) : Bool :=
  isDottedQuadChars s.data

end HuePykit.Discovery


/-! ## Helper lemmas -/

namespace HuePykit.DtlsHandshake

theorem hsLoop_failed_iff (script : List HsSignal) :
    ∀ retries writes retrans, retries ≤ 3 →
      ((hsLoop retries writes retrans script).failed = true ↔
        4 ≤ retries + wantWritesBeforeOver script) := by
  induction script with
  | nil =>
    intro retries writes retrans h
    simp [hsLoop, wantWritesBeforeOver]
    omega
  | cons sig rest ih =>
    intro retries writes retrans h
    cases sig with
    | over => simp [hsLoop, wantWritesBeforeOver]; omega
    | wantRead => simpa [hsLoop, wantWritesBeforeOver] using ih retries writes retrans h
    | wantWrite =>
      by_cases h1 : retries + 1 < 3
      · rw [hsLoop, if_pos h1]
        rw [ih (retries + 1) (writes + 2) (retrans + 1) (by omega)]
        simp [wantWritesBeforeOver]
        omega
      · by_cases h2 : retries + 1 > 3
        · rw [hsLoop, if_neg h1, if_pos h2]
          simp [wantWritesBeforeOver]
          omega
        · rw [hsLoop, if_neg h1, if_neg h2]
          rw [ih (retries + 1) (writes + 1) retrans (by omega)]
          simp [wantWritesBeforeOver]
          omega

theorem hsLoop_retrans_le (script : List HsSignal) :
    ∀ retries writes retrans,
      (hsLoop retries writes retrans script).retransmissions ≤
        retrans + (2 - min 2 retries) := by
  induction script with
  | nil => intro retries writes retrans; simp [hsLoop]
  | cons sig rest ih =>
    intro retries writes retrans
    cases sig with
    | over => simp [hsLoop]
    | wantRead => simpa [hsLoop] using ih retries writes retrans
    | wantWrite =>
      by_cases h1 : retries + 1 < 3
      · rw [hsLoop, if_pos h1]
        have := ih (retries + 1) (writes + 2) (retrans + 1)
        omega
      · by_cases h2 : retries + 1 > 3
        · rw [hsLoop, if_neg h1, if_pos h2]
          simp
        · rw [hsLoop, if_neg h1, if_neg h2]
          have := ih (retries + 1) (writes + 1) retrans
          omega

end HuePykit.DtlsHandshake

namespace HuePykit.OldStreaming

theorem keepAliveFrom_getElem (lastMsg : ℕ → List ℕ) :
    ∀ fuel t i n, n < fuel →
      (keepAliveFrom lastMsg t i fuel)[n]? = some (t + 95 * n, lastMsg (i + n)) := by
  intro fuel
  induction fuel with
  | zero => intro t i n hn; omega
  | succ fuel ih =>
    intro t i n hn
    cases n with
    | zero => simp [keepAliveFrom]
    | succ n =>
      have := ih (t + 95) (i + 1) n (by omega)
      rw [keepAliveFrom]
      simpa [Nat.mul_succ, Nat.add_assoc, Nat.add_comm, Nat.add_left_comm] using this

end HuePykit.OldStreaming

/-! ## Claim theorems -/

namespace HuePykit

/-- C3 counterexample: drive `do_handshake` with four consecutive
wants-write signals.  The handshake fails with `DTLSHandshakeException`
after only **2** retransmissions of the flight, not after a 3rd
retransmission as the claim states (retransmissions happen only while the
incremented retry counter is < 3, i.e. on the first two signals). -/
theorem dtls_retry_counterexample :
    (DtlsHandshake.hsRun
        [.wantWrite, .wantWrite, .wantWrite, .wantWrite]).failed = true
    ∧ (DtlsHandshake.hsRun
        [.wantWrite, .wantWrite, .wantWrite, .wantWrite]).retransmissions = 2
    ∧ (2 : ℕ) ≠ 3 := by
  refine ⟨by decide, by decide, by decide⟩

/-- C3 (amended): on each wants-write signal the transport writes the
outbound flight; on the first two such signals it additionally waits
300 ms and retransmits the flight once, so at most 2 retransmissions
occur over the whole handshake; the handshake raises
`DTLSHandshakeException` exactly when a 4th wants-write signal occurs
before completion (with no retransmission on the 3rd or 4th signal). -/
theorem dtls_retry_policy (script : List DtlsHandshake.HsSignal) :
    (DtlsHandshake.hsRun script).retransmissions ≤ 2
    ∧ ((DtlsHandshake.hsRun script).failed = true ↔
        4 ≤ DtlsHandshake.wantWritesBeforeOver script)
    ∧ DtlsHandshake.hsRun [.wantWrite, .wantWrite, .wantWrite, .wantWrite]
        = ⟨6, 2, true, false⟩ := by
  refine ⟨?_, ?_, by decide⟩
  · simpa using DtlsHandshake.hsLoop_retrans_le script 0 0 0
  · simpa using DtlsHandshake.hsLoop_failed_iff script 0 0 0 (by omega)

/-- C4: the reconnect attempt counter starts at 0; while below the cap a
failed reconnect handshake increments it by exactly 1 and a successful
one resets it to 0; once it reaches 3, `_attempt_reconnect` returns
without touching the socket or attempting a handshake (state unchanged,
no actions), so the counter never exceeds 3 along any sequence of
reconnect outcomes. -/
theorem reconnect_counter_policy :
    OldStreaming.idleInit.attempts = 0
    ∧ (∀ s : OldStreaming.Session, s.attempts < 3 →
        (OldStreaming.attemptReconnect false s).1.attempts = s.attempts + 1
        ∧ (OldStreaming.attemptReconnect true s).1.attempts = 0)
    ∧ (∀ s : OldStreaming.Session, 3 ≤ s.attempts → ∀ hsOk,
        OldStreaming.attemptReconnect hsOk s = (s, []))
    ∧ (∀ (outcomes : List Bool) (s : OldStreaming.Session), s.attempts ≤ 3 →
        (OldStreaming.runReconnects outcomes s).attempts ≤ 3) := by
  refine ⟨rfl, ?_, ?_, ?_⟩
  · intro s h
    constructor
    · simp [OldStreaming.attemptReconnect, Nat.not_le.mpr h]
    · simp [OldStreaming.attemptReconnect, Nat.not_le.mpr h]
  · intro s h hsOk
    simp [OldStreaming.attemptReconnect, h]
  · intro outcomes
    induction outcomes with
    | nil => intro s h; simpa [OldStreaming.runReconnects] using h
    | cons ok rest ih =>
      intro s h
      have step : ((OldStreaming.attemptReconnect ok s).1).attempts ≤ 3 := by
        by_cases hc : 3 ≤ s.attempts
        · simp [OldStreaming.attemptReconnect, hc]; omega
        · cases ok <;> simp [OldStreaming.attemptReconnect, hc] <;> omega
      simpa [OldStreaming.runReconnects, List.foldl_cons] using
        ih (OldStreaming.attemptReconnect ok s).1 step

/-- C4 witness: a concrete run — from a fresh session, three failed
reconnects reach the cap and stay within it. -/
theorem reconnect_counter_policy_witness :
    OldStreaming.idleInit.attempts < 3
    ∧ (OldStreaming.attemptReconnect false OldStreaming.idleInit).1.attempts
        = OldStreaming.idleInit.attempts + 1
    ∧ (OldStreaming.runReconnects [false, false, false, false]
        OldStreaming.idleInit).attempts ≤ 3 := by
  refine ⟨by decide, (reconnect_counter_policy.2.1 _ (by decide)).1,
    reconnect_counter_policy.2.2.2 [false, false, false, false] _ (by decide)⟩

/-- C5 counterexample: against a fake clock the keep-alive worker's first
send happens immediately at T = 0 (the loop body sends before it sleeps),
not at T = 9.5 s as the claim states.  Times are in tenths of a second
(9.5 s = 95). -/
theorem keepalive_initial_send_counterexample :
    OldStreaming.keepAliveTrace (fun n => [n]) 2 = [(0, [0]), (95, [1])]
    ∧ (0 : ℕ) ≠ 95 := by
  exact ⟨rfl, by decide⟩

/-- C5 (amended): the keep-alive worker sends `last_sent_datagram`
every `KEEP_ALIVE_INTERVAL = 9.5 s`, with the initial send occurring
immediately when the worker starts (T = 0 s), the next at T = 9.5 s, then
T = 19.0 s, and so on, each send using the latest `last_sent_datagram`
value at that moment.  Times in tenths of a second. -/
theorem keepalive_cadence (lastMsg : ℕ → List ℕ) (fuel n : ℕ)
    (hn : n < fuel) :
    (OldStreaming.keepAliveTrace lastMsg fuel)[n]? = some (95 * n, lastMsg n) := by
  simpa using OldStreaming.keepAliveFrom_getElem lastMsg fuel 0 0 n hn

/-- C5 witness: the second send of a 3-iteration run occurs at 9.5 s with
the message observed by iteration 1. -/
theorem keepalive_cadence_witness :
    (1 : ℕ) < 3
    ∧ (OldStreaming.keepAliveTrace (fun n => [n + 7]) 3)[1]? = some (95, [8]) :=
  ⟨by decide, keepalive_cadence (fun n => [n + 7]) 3 1 (by decide)⟩

end HuePykit

namespace HuePykit

theorem pyTrunc_natCast (m : ℕ) : pyTrunc (m : ℚ) = m := by
  simp [pyTrunc]

theorem normalizeRgb_natCast_mul (n : ℕ) :
    normalizeRgb (n : ℚ) * 65535 = ((257 * n : ℕ) : ℚ) := by
  unfold normalizeRgb
  push_cast
  field_simp
  ring

theorem clamp01_nonneg (q : ℚ) : 0 ≤ clamp01 q := le_max_left 0 _

theorem clamp01_le_one (q : ℚ) : clamp01 q ≤ 1 :=
  max_le (by norm_num) (min_le_left 1 q)

theorem pyTrunc_clamp_nonneg (q : ℚ) : 0 ≤ pyTrunc (clamp01 q * 65535) := by
  have h : (0 : ℚ) ≤ clamp01 q * 65535 := by
    have := clamp01_nonneg q
    positivity
  simp [pyTrunc, h]
  exact Int.floor_nonneg.mpr h

theorem pyTrunc_clamp_le (q : ℚ) : pyTrunc (clamp01 q * 65535) ≤ 65535 := by
  have h : (0 : ℚ) ≤ clamp01 q * 65535 := by
    have := clamp01_nonneg q
    positivity
  have hle : clamp01 q * 65535 ≤ 65535 := by
    have := clamp01_le_one q
    nlinarith
  calc pyTrunc (clamp01 q * 65535) = ⌊clamp01 q * 65535⌋ := by simp [pyTrunc, h]
    _ ≤ ⌊(65535 : ℚ)⌋ := Int.floor_le_floor hle
    _ = 65535 := by norm_num

theorem pyTrunc_clamp_zero : pyTrunc (clamp01 0 * 65535) = 0 := by
  have h : clamp01 (0 : ℚ) = 0 := by simp [clamp01]
  rw [h]
  norm_num [pyTrunc]

theorem pyTrunc_clamp_one : pyTrunc (clamp01 1 * 65535) = 65535 := by
  have h : clamp01 (1 : ℚ) = 1 := by simp [clamp01]
  rw [h, one_mul]
  have : ((65535 : ℕ) : ℚ) = (65535 : ℚ) := by norm_num
  rw [← this, pyTrunc_natCast]
  norm_num

theorem pyTrunc_clamp_half : pyTrunc (clamp01 (1 / 2) * 65535) = 32767 := by
  have h : clamp01 ((1 : ℚ) / 2) = 1 / 2 := by
    unfold clamp01
    rw [min_eq_right (by norm_num), max_eq_right (by norm_num)]
  rw [h]
  have hnn : (0 : ℚ) ≤ 1 / 2 * 65535 := by norm_num
  rw [pyTrunc, if_pos hnn, Int.floor_eq_iff]
  norm_num

/-- C6: `rgb8_to_rgb16` maps each 8-bit component `c` to the truncation
of `(c / 255.0) * 65535`, which equals `c * 65535 / 255` in truncating
integer division (= `257·c`), a u16; `xyb_to_rgb16` maps each component
to the truncation of `clamp(·, 0, 1) * 65535` — yielding `(0,0,0)`,
`(65535,65535,65535)` and `(32767,32767,32767)` at the cited inputs —
and its results always lie in `[0, 65535]`. -/
theorem converter_conversions (r g b : ℕ)
    (hr : r ≤ 255) (hg : g ≤ 255) (hb : b ≤ 255) :
    (rgb8_to_rgb16 ((r : ℚ), (g : ℚ), (b : ℚ)) =
        (((r * 65535 / 255 : ℕ) : ℤ), ((g * 65535 / 255 : ℕ) : ℤ),
         ((b * 65535 / 255 : ℕ) : ℤ))
      ∧ r * 65535 / 255 ≤ 65535 ∧ g * 65535 / 255 ≤ 65535
      ∧ b * 65535 / 255 ≤ 65535)
    ∧ (∀ q : ℚ × ℚ × ℚ,
        0 ≤ (xyb_to_rgb16 q).1 ∧ (xyb_to_rgb16 q).1 ≤ 65535
        ∧ 0 ≤ (xyb_to_rgb16 q).2.1 ∧ (xyb_to_rgb16 q).2.1 ≤ 65535
        ∧ 0 ≤ (xyb_to_rgb16 q).2.2 ∧ (xyb_to_rgb16 q).2.2 ≤ 65535)
    ∧ xyb_to_rgb16 (0, 0, 0) = (0, 0, 0)
    ∧ xyb_to_rgb16 (1, 1, 1) = (65535, 65535, 65535)
    ∧ xyb_to_rgb16 (1 / 2, 1 / 2, 1 / 2) = (32767, 32767, 32767) := by
  have hdiv : ∀ n : ℕ, n * 65535 / 255 = 257 * n := by intro n; omega
  have hcomp : ∀ n : ℕ, pyTrunc (normalizeRgb (n : ℚ) * 65535) =
      ((n * 65535 / 255 : ℕ) : ℤ) := by
    intro n
    rw [normalizeRgb_natCast_mul, pyTrunc_natCast, hdiv]
  refine ⟨⟨?_, ?_, ?_, ?_⟩, ?_, ?_, ?_, ?_⟩
  · simp only [rgb8_to_rgb16]
    rw [hcomp r, hcomp g, hcomp b]
  · rw [hdiv]; omega
  · rw [hdiv]; omega
  · rw [hdiv]; omega
  · intro q
    exact ⟨pyTrunc_clamp_nonneg _, pyTrunc_clamp_le _,
      pyTrunc_clamp_nonneg _, pyTrunc_clamp_le _,
      pyTrunc_clamp_nonneg _, pyTrunc_clamp_le _⟩
  · simp only [xyb_to_rgb16]
    rw [pyTrunc_clamp_zero]
  · simp only [xyb_to_rgb16]
    rw [pyTrunc_clamp_one]
  · simp only [xyb_to_rgb16]
    rw [pyTrunc_clamp_half]

/-- C6 witness: the conversions at the concrete triple (123, 45, 67). -/
theorem converter_conversions_witness :
    ((123 : ℕ) ≤ 255 ∧ (45 : ℕ) ≤ 255 ∧ (67 : ℕ) ≤ 255)
    ∧ rgb8_to_rgb16 ((123 : ℚ), (45 : ℚ), (67 : ℚ)) =
        ((31611 : ℤ), (11565 : ℤ), (17219 : ℤ)) := by
  refine ⟨⟨by decide, by decide, by decide⟩, ?_⟩
  have h := (converter_conversions 123 45 67 (by decide) (by decide)
    (by decide)).1.1
  norm_num at h
  exact h

end HuePykit

namespace HuePykit

theorem isValidXyb_one_one_one : OldStreaming.isValidXyb (1, 1, 1) = true := by
  simp [OldStreaming.isValidXyb]

theorem isValidXyb_zero_one_one : OldStreaming.isValidXyb (0, 1, 1) = true := by
  simp [OldStreaming.isValidXyb]

/-- C9: in the single-channel streaming path the converter dispatch of
`_pack_color_data` depends only on the numeric values of the tuple (the
method never reads the session colour space): any tuple with all three
components in `[0, 1]` — including the integer RGB8 tuple `(1, 1, 1)` —
is converted with `xyb_to_rgb16`, so `(1, 1, 1)` is serialised as
`(65535, 65535, 65535)` and not as the near-black rgb16 value
`(257, 257, 257)`; only tuples with a component outside `[0, 1]` go
through `rgb8_to_rgb16`. -/
theorem pack_color_dispatch :
    (∀ c : ℚ × ℚ × ℚ, OldStreaming.isValidXyb c = true →
        OldStreaming.packColorConversion c = xyb_to_rgb16 c)
    ∧ (∀ c : ℚ × ℚ × ℚ, OldStreaming.isValidXyb c = false →
        OldStreaming.packColorConversion c = rgb8_to_rgb16 c)
    ∧ OldStreaming.packColorConversion (1, 1, 1) = (65535, 65535, 65535)
    ∧ OldStreaming.packColorConversion (0, 1, 1) = (0, 65535, 65535)
    ∧ OldStreaming.packColorConversion (1, 1, 1) ≠ (257, 257, 257) := by
  have h111 : OldStreaming.packColorConversion (1, 1, 1)
      = (65535, 65535, 65535) := by
    rw [OldStreaming.packColorConversion, if_pos isValidXyb_one_one_one]
    simp only [xyb_to_rgb16]
    rw [pyTrunc_clamp_one]
  refine ⟨?_, ?_, h111, ?_, ?_⟩
  · intro c h
    simp [OldStreaming.packColorConversion, h]
  · intro c h
    simp [OldStreaming.packColorConversion, h]
  · rw [OldStreaming.packColorConversion, if_pos isValidXyb_zero_one_one]
    simp only [xyb_to_rgb16]
    rw [pyTrunc_clamp_zero, pyTrunc_clamp_one]
  · rw [h111]
    intro h
    have hfst : (65535 : ℤ) = 257 := congrArg Prod.fst h
    norm_num at hfst

/-- C9 witness: the dispatch applied at the concrete tuple (1, 1, 1). -/
theorem pack_color_dispatch_witness :
    OldStreaming.isValidXyb (1, 1, 1) = true
    ∧ OldStreaming.packColorConversion (1, 1, 1) = xyb_to_rgb16 (1, 1, 1) :=
  ⟨isValidXyb_one_one_one,
    pack_color_dispatch.1 (1, 1, 1) isValidXyb_one_one_one⟩

/-- C10: `set_color_space` validates case-insensitively — any value whose
lowercasing is in `["rgb", "xyb"]` is accepted, everything else raises
`ValueError` leaving the colour space unchanged — but the dispatch that
follows is case-sensitive: the byte is `0x00` exactly when the argument
is the exact string `"rgb"`, and every other accepted spelling (e.g.
`"RGB"`, `"Rgb"`) yields `0x01`. -/
theorem set_color_space_dispatch (value : String) (current : ℕ) :
    (PkStreaming.pyLower value ∈ PkStreaming.colorSpaceList →
        (PkStreaming.setColorSpace value current).2 = true
        ∧ ((PkStreaming.setColorSpace value current).1 = 0 ↔ value = "rgb")
        ∧ ((PkStreaming.setColorSpace value current).1 = 1 ↔ value ≠ "rgb"))
    ∧ (PkStreaming.pyLower value ∉ PkStreaming.colorSpaceList →
        PkStreaming.setColorSpace value current = (current, false))
    ∧ PkStreaming.setColorSpace "RGB" current = (1, true)
    ∧ PkStreaming.setColorSpace "Rgb" current = (1, true)
    ∧ PkStreaming.setColorSpace "rgb" current = (0, true)
    ∧ PkStreaming.setColorSpace "XYB" current = (1, true) := by
  have hRGB : PkStreaming.pyLower "RGB" = "rgb" := by decide
  have hRgb : PkStreaming.pyLower "Rgb" = "rgb" := by decide
  have hrgb : PkStreaming.pyLower "rgb" = "rgb" := by decide
  have hXYB : PkStreaming.pyLower "XYB" = "xyb" := by decide
  refine ⟨?_, ?_, ?_, ?_, ?_, ?_⟩
  · intro hmem
    rw [PkStreaming.setColorSpace, if_pos hmem]
    by_cases hv : value = "rgb" <;> simp [hv]
  · intro hmem
    rw [PkStreaming.setColorSpace, if_neg hmem]
  · rw [PkStreaming.setColorSpace, if_pos (by rw [hRGB]; decide)]
    norm_num [show ("RGB" : String) ≠ "rgb" from by decide]
  · rw [PkStreaming.setColorSpace, if_pos (by rw [hRgb]; decide)]
    norm_num [show ("Rgb" : String) ≠ "rgb" from by decide]
  · rw [PkStreaming.setColorSpace, if_pos (by rw [hrgb]; decide)]
    norm_num
  · rw [PkStreaming.setColorSpace, if_pos (by rw [hXYB]; decide)]
    norm_num [show ("XYB" : String) ≠ "rgb" from by decide]

/-- C10 witness: the case-insensitive acceptance and case-sensitive
dispatch applied at `"Rgb"`. -/
theorem set_color_space_dispatch_witness :
    PkStreaming.pyLower "Rgb" ∈ PkStreaming.colorSpaceList
    ∧ ((PkStreaming.setColorSpace "Rgb" 0).1 = 1 ↔ ("Rgb" : String) ≠ "rgb") :=
  ⟨by decide, ((set_color_space_dispatch "Rgb" 0).1 (by decide)).2.2⟩

end HuePykit

namespace HuePykit

/-- C2: `start_stream` issues the REST PUT whose body is
`{"action": "start"}` (the id is stripped by `put_configuration`) strictly
before the DTLS handshake; on handshake failure it closes the socket,
issues a best-effort REST `{"action": "stop"}`, raises the connection
error, and leaves the session inactive with no workers started; on an
active session `stop_stream` closes the DTLS socket before issuing the
REST `{"action": "stop"}`. -/
theorem start_stop_sequencing (cfgId : String) (hsOk : Bool)
    (s t : PkStreaming.SessionSt) (ht : t.alive = true) :
    ((PkStreaming.startStream cfgId hsOk s).2.1[0]? =
        some (.restPut [("action", "start")])
      ∧ (PkStreaming.startStream cfgId hsOk s).2.1[1]? =
        some (.handshake hsOk))
    ∧ (PkStreaming.startStream cfgId false s =
        (s, [.restPut [("action", "start")], .handshake false, .socketClose,
             .restPut [("action", "stop")]], true))
    ∧ (PkStreaming.startStream cfgId false PkStreaming.initSession).1 =
        PkStreaming.initSession
    ∧ (PkStreaming.stopStream cfgId t =
        ({ t with alive := false },
         [.workerJoin, .workerJoin, .socketClose,
          .restPut [("action", "stop")]], false)) := by
  have hbody : ∀ a : String, PkStreaming.putBody [("id", cfgId), ("action", a)]
      = [("action", a)] := by
    intro a
    simp [PkStreaming.putBody]
  refine ⟨?_, ?_, rfl, ?_⟩
  · cases hsOk <;> simp [PkStreaming.startStream, hbody]
  · simp [PkStreaming.startStream, hbody]
  · simp [PkStreaming.stopStream, ht, hbody]

/-- C2 witness: the sequencing applied on a concrete active session. -/
theorem start_stop_sequencing_witness :
    (⟨true, true⟩ : PkStreaming.SessionSt).alive = true
    ∧ PkStreaming.stopStream "cfg" ⟨true, true⟩ =
        (⟨false, true⟩,
         [.workerJoin, .workerJoin, .socketClose,
          .restPut [("action", "stop")]], false) := by
  refine ⟨rfl, ?_⟩
  exact (start_stop_sequencing "cfg" true PkStreaming.initSession
    ⟨true, true⟩ rfl).2.2.2

/-- C8 counterexample: calling `stop_stream` on a fresh Idle session (no
socket, not alive) leaves the session Idle **with an open UDP socket**:
the guard's `get_socket()` call creates one before the not-streaming
`SocketError` is raised, contradicting "zero UDP sockets are open while
Idle" / "no operation invoked on an Idle session opens a socket". -/
theorem stop_on_idle_counterexample :
    (OldStreaming.stopStreamOld OldStreaming.idleInit).1.dtls.sockOpen = true
    ∧ (OldStreaming.stopStreamOld OldStreaming.idleInit).1.alive = false
    ∧ (OldStreaming.stopStreamOld OldStreaming.idleInit).2 = true :=
  ⟨rfl, rfl, rfl⟩

/-- C8 (amended): whenever a reachable session is Active it holds an open
socket (the session owns at most one socket by construction); but an Idle
session can hold an open socket: `stop_stream` invoked on a fresh Idle
session opens one via its `get_socket()` guard before raising the
not-streaming error, leaving the session Idle with that socket open. -/
theorem socket_session_invariant :
    (∀ s : OldStreaming.Session, OldStreaming.Reachable s →
        s.alive = true → s.dtls.sockOpen = true)
    ∧ ((OldStreaming.stopStreamOld OldStreaming.idleInit).1.dtls.sockOpen = true
      ∧ (OldStreaming.stopStreamOld OldStreaming.idleInit).1.alive = false
      ∧ (OldStreaming.stopStreamOld OldStreaming.idleInit).2 = true) := by
  refine ⟨?_, rfl, rfl, rfl⟩
  intro s hs
  induction hs with
  | init => intro h; exact absurd h (by decide)
  | @start hsOk s hr ih =>
    intro _
    cases hsOk <;> rfl
  | @stop s hr ih =>
    by_cases hsa : s.alive = true
    · intro h
      simp [OldStreaming.stopStreamOld, OldStreaming.getSocket,
        OldStreaming.closeSocket, hsa] at h
    · have hsa' : s.alive = false := by
        cases h : s.alive
        · rfl
        · exact absurd h hsa
      intro _
      simp [OldStreaming.stopStreamOld, OldStreaming.getSocket, hsa']
  | @reconnect hsOk s hr ih =>
    intro h
    by_cases hc : s.attempts ≥ 3
    · simp only [OldStreaming.attemptReconnect, if_pos hc] at h ⊢
      exact ih h
    · cases hsOk <;>
        simp [OldStreaming.attemptReconnect, hc, OldStreaming.handshakeDtls,
          OldStreaming.closeSocket]

/-- C8 witness: the invariant applied at a concrete reachable Active
state (a successful `start_stream` from a fresh session). -/
theorem socket_session_invariant_witness :
    OldStreaming.Reachable (OldStreaming.startStreamOld true OldStreaming.idleInit)
    ∧ (OldStreaming.startStreamOld true OldStreaming.idleInit).dtls.sockOpen
        = true :=
  ⟨OldStreaming.Reachable.start true OldStreaming.Reachable.init,
   socket_session_invariant.1 _
     (OldStreaming.Reachable.start true OldStreaming.Reachable.init) rfl⟩

end HuePykit

namespace HuePykit.PkStreaming

theorem packColorData_length (u : ChannelUpdate) : (packColorData u).length = 7 :=
  rfl

theorem flatten_length7 (L : List (List ℕ)) (h : ∀ x ∈ L, x.length = 7) :
    L.flatten.length = 7 * L.length := by
  induction L with
  | nil => simp
  | cons x xs ih =>
    have hx := h x (List.mem_cons_self x xs)
    have hxs := ih fun y hy => h y (List.mem_cons_of_mem x hy)
    simp [hx, hxs]
    ring

theorem flatten_slice7 (L : List (List ℕ)) (h : ∀ x ∈ L, x.length = 7) :
    ∀ k, (hk : k < L.length) → (L.flatten.drop (7 * k)).take 7 = L[k] := by
  induction L with
  | nil => intro k hk; simp at hk
  | cons x xs ih =>
    intro k hk
    have hx := h x (List.mem_cons_self x xs)
    cases k with
    | zero =>
      simp only [Nat.mul_zero, List.drop_zero, List.flatten_cons, List.getElem_cons_zero]
      exact List.take_left' hx
    | succ k =>
      have hk' : k < xs.length := by simpa using hk
      have step : ((x :: xs).flatten).drop (7 * (k + 1)) =
          (xs.flatten).drop (7 * k) := by
        have : 7 * (k + 1) = 7 + 7 * k := by ring
        rw [this, ← List.drop_drop, List.flatten_cons, List.drop_left' hx]
      rw [step, List.getElem_cons_succ]
      exact ih (fun y hy => h y (List.mem_cons_of_mem x hy)) k hk'

theorem buildMessage_shape (cs : ℕ) (entId : List ℕ) (L : List (List ℕ)) :
    buildMessage cs entId L =
      72 :: 117 :: 101 :: 83 :: 116 :: 114 :: 101 :: 97 :: 109 ::
      0x02 :: 0x00 :: 0x07 :: 0x00 :: 0x00 :: cs :: 0x00 ::
      (entId ++ L.flatten) := by
  simp [buildMessage, protocolName, HuePykit.asciiBytes]

end HuePykit.PkStreaming

namespace HuePykit

/-- C1: for every frame of N ≥ 1 channel updates submitted in one
`set_input` call, the engine serialises the whole frame into exactly one
datagram of `52 + 7·N` bytes: the 52-byte header (ASCII `"HueStream"`,
`02 00`, `07`, `00 00`, the session colour-space byte, `00`, the 36
ASCII bytes of the active configuration UUID) followed by one 7-byte
record per channel — the channel-id byte then three big-endian u16
values — in submission order. -/
theorem frame_serialization (cs : ℕ) (entId : List ℕ)
    (frame : List PkStreaming.ChannelUpdate)
    (hN : 1 ≤ frame.length) (hId : entId.length = 36)
    (hIdb : ∀ x ∈ entId, x < 256) (hcs : cs < 256)
    (hframe : ∀ u ∈ frame,
      u.lightId < 256 ∧ u.r < 65536 ∧ u.g < 65536 ∧ u.b < 65536) :
    PkStreaming.FrameDatagramSpec cs entId frame := by
  classical
  set F : List ℕ := (frame.map PkStreaming.packColorData).flatten with hF
  have hmem7 : ∀ x ∈ frame.map PkStreaming.packColorData, x.length = 7 := by
    intro x hx
    rcases List.mem_map.mp hx with ⟨u, _, rfl⟩
    exact PkStreaming.packColorData_length u
  have hFlen : F.length = 7 * frame.length := by
    rw [hF, PkStreaming.flatten_length7 _ hmem7, List.length_map]
  refine ⟨PkStreaming.buildMessage cs entId (frame.map PkStreaming.packColorData),
    rfl, ?_, ?_, ?_, ?_, ?_, ?_, ?_, ?_, ?_, ?_, ?_, ?_⟩
  · rw [PkStreaming.buildMessage_shape]
    simp only [List.length_cons, List.length_append, hId, ← hF, hFlen]
    omega
  · rw [PkStreaming.buildMessage_shape]
    rfl
  · rw [PkStreaming.buildMessage_shape]; simp
  · rw [PkStreaming.buildMessage_shape]; simp
  · rw [PkStreaming.buildMessage_shape]; simp
  · rw [PkStreaming.buildMessage_shape]; simp
  · rw [PkStreaming.buildMessage_shape]; simp
  · rw [PkStreaming.buildMessage_shape]; simp
  · rw [PkStreaming.buildMessage_shape]; simp
  · rw [PkStreaming.buildMessage_shape]
    show (entId ++ F).take 36 = entId
    exact List.take_left' hId
  · rw [PkStreaming.buildMessage_shape]
    intro x hx
    simp only [List.mem_cons, List.mem_append] at hx
    rcases hx with rfl | rfl | rfl | rfl | rfl | rfl | rfl | rfl | rfl | rfl
      | rfl | rfl | rfl | rfl | rfl | rfl | hent | hflat
    case _ => omega
    case _ => omega
    case _ => omega
    case _ => omega
    case _ => omega
    case _ => omega
    case _ => omega
    case _ => omega
    case _ => omega
    case _ => omega
    case _ => omega
    case _ => omega
    case _ => omega
    case _ => omega
    case _ => omega
    case _ => omega
    case _ => exact hIdb x hent
    · rcases List.mem_flatten.mp hflat with ⟨rec, hrec, hxrec⟩
      rcases List.mem_map.mp hrec with ⟨u, hu, rfl⟩
      obtain ⟨hid, hr, hg, hb⟩ := hframe u hu
      have hflat' : x = u.lightId ∨ x = u.r / 256 ∨ x = u.r % 256
          ∨ x = u.g / 256 ∨ x = u.g % 256 ∨ x = u.b / 256 ∨ x = u.b % 256 := by
        simpa [PkStreaming.packColorData, HuePykit.be16, or_assoc] using hxrec
      have h256 : ∀ n : ℕ, n < 65536 → n / 256 < 256 := by intro n hn; omega
      rcases hflat' with rfl | rfl | rfl | rfl | rfl | rfl | rfl <;> omega
  · intro k hk
    rw [PkStreaming.buildMessage_shape]
    have hdrop52 :
        (72 :: 117 :: 101 :: 83 :: 116 :: 114 :: 101 :: 97 :: 109 ::
          0x02 :: 0x00 :: 0x07 :: 0x00 :: 0x00 :: cs :: 0x00 ::
          (entId ++ F) : List ℕ).drop (52 + 7 * k) = F.drop (7 * k) := by
      have h1 :
          (72 :: 117 :: 101 :: 83 :: 116 :: 114 :: 101 :: 97 :: 109 ::
            0x02 :: 0x00 :: 0x07 :: 0x00 :: 0x00 :: cs :: 0x00 ::
            (entId ++ F) : List ℕ).drop 16 = entId ++ F := rfl
      have h2 : 52 + 7 * k = 16 + (36 + 7 * k) := by omega
      rw [h2, ← List.drop_drop, h1, ← List.drop_drop, List.drop_left' hId]
    rw [hdrop52, hF]
    have hk' : k < (frame.map PkStreaming.packColorData).length := by
      simpa using hk
    rw [PkStreaming.flatten_slice7 _ hmem7 k hk', List.getElem_map]
    rfl

end HuePykit

namespace HuePykit

/-- C1 witness: the frame of the spec's warm-start scenario — channel 1
set to the rgb16 triple (0xA26B, 0x0000, 0xFFFF) on the configuration
`2022ffc4-1b73-4a43-b376-4c45369bf207` in the xyb colour space. -/
theorem frame_serialization_witness :
    (1 ≤ ([⟨41579, 0, 65535, 1⟩] : List PkStreaming.ChannelUpdate).length
      ∧ (asciiBytes "2022ffc4-1b73-4a43-b376-4c45369bf207").length = 36
      ∧ (1 : ℕ) < 256)
    ∧ PkStreaming.FrameDatagramSpec 1
        (asciiBytes "2022ffc4-1b73-4a43-b376-4c45369bf207")
        [⟨41579, 0, 65535, 1⟩] :=
  ⟨⟨by decide, by decide, by decide⟩,
   frame_serialization 1 _ _ (by decide) (by decide) (by decide) (by decide)
     (by decide)⟩

end HuePykit

namespace HuePykit.Discovery

theorem splitDot_ne_nil (cs : List Char) : splitDot cs ≠ [] := by
  induction cs with
  | nil => simp [splitDot]
  | cons c rest ih =>
    rw [splitDot]
    by_cases h : c = '.'
    · simp [h]
    · rw [if_neg h]
      cases hsp : splitDot rest with
      | nil => simp
      | cons p ps => simp

theorem mem_splitDot (cs : List Char) (c : Char) (hc : c ∈ cs) :
    c = '.' ∨ ∃ p ∈ splitDot cs, c ∈ p := by
  induction cs with
  | nil => cases hc
  | cons a rest ih =>
    rcases List.mem_cons.mp hc with rfl | hmem
    · by_cases h : c = '.'
      · exact Or.inl h
      · right
        rw [splitDot, if_neg h]
        cases hsp : splitDot rest with
        | nil => exact ⟨[c], by simp⟩
        | cons p ps => exact ⟨c :: p, by simp⟩
    · rcases ih hmem with h | ⟨p, hp, hcp⟩
      · exact Or.inl h
      · right
        rw [splitDot]
        by_cases ha : a = '.'
        · rw [if_pos ha]
          exact ⟨p, List.mem_cons_of_mem _ hp, hcp⟩
        · rw [if_neg ha]
          cases hsp : splitDot rest with
          | nil => rw [hsp] at hp; cases hp
          | cons q qs =>
            rw [hsp] at hp
            rcases List.mem_cons.mp hp with rfl | hin
            · exact ⟨a :: p, by simp, List.mem_cons_of_mem _ hcp⟩
            · exact ⟨p, by simp [hin], hcp⟩

theorem quad_chars (cs : List Char) (h : isDottedQuadChars cs = true) :
    ∀ c ∈ cs, isIpDigit c = true ∨ c = '.' := by
  intro c hc
  rcases mem_splitDot cs c hc with h1 | ⟨p, hp, hcp⟩
  · exact Or.inr h1
  · left
    rw [isDottedQuadChars, Bool.and_eq_true] at h
    have hoct := List.all_eq_true.mp h.2 p hp
    rw [isValidOctet] at hoct
    simp only [Bool.and_eq_true] at hoct
    exact List.all_eq_true.mp hoct.1.1.2 c hcp

theorem quad_no_newline (cs : List Char) (h : isDottedQuadChars cs = true) :
    Char.ofNat 10 ∉ cs := by
  intro hmem
  rcases quad_chars cs h (Char.ofNat 10) hmem with hd | hdot
  · exact absurd hd (by decide)
  · exact absurd hdot (by decide)

end HuePykit.Discovery

namespace HuePykit

/-- C7 counterexample: the validating regex is anchored with `$`, which in
Python also matches just before one trailing newline, so `_is_valid_ip`
accepts `"0.0.0.0\n"` — a string with a trailing character that is not a
dotted quad — contradicting "accepts no other strings". -/
theorem ip_trailing_newline_counterexample :
    Discovery.isValidIp "0.0.0.0\n" = true
    ∧ Discovery.specDottedQuad "0.0.0.0\n" = false := by
  exact ⟨by decide, by decide⟩

/-- C7 (amended): `_is_valid_ip` accepts exactly the dotted quads of four
octets — integer strings in `[0, 255]` with no leading zeros — **plus**
the same strings with one trailing newline (Python `$` matches before a
final `'\n'`); it accepts `"192.168.30.204"` and `"0.0.0.0"` and rejects
`"256.0.0.1"`, `"01.0.0.1"`, `"1.2.3"`, `"1.2.3.4.5"`, `"a.b.c.d"`, `""`. -/
theorem ip_validator_language :
    (∀ s : String, Discovery.isValidIp s = true ↔
        (Discovery.specDottedQuad s = true
          ∨ ∃ t : String, s = t ++ "\n" ∧ Discovery.specDottedQuad t = true))
    ∧ Discovery.isValidIp "192.168.30.204" = true
    ∧ Discovery.isValidIp "0.0.0.0" = true
    ∧ Discovery.isValidIp "256.0.0.1" = false
    ∧ Discovery.isValidIp "01.0.0.1" = false
    ∧ Discovery.isValidIp "1.2.3" = false
    ∧ Discovery.isValidIp "1.2.3.4.5" = false
    ∧ Discovery.isValidIp "a.b.c.d" = false
    ∧ Discovery.isValidIp "" = false := by
  refine ⟨?_, by decide, by decide, by decide, by decide, by decide,
    by decide, by decide, by decide⟩
  intro s
  obtain ⟨cs⟩ := s
  rw [Discovery.isValidIp, Discovery.specDottedQuad, Discovery.stripFinalNewline]
  by_cases h : cs.getLast? = some (Char.ofNat 10)
  · have hnl : (Char.ofNat 10 : Char) = '\n' := by decide
    have hcs : cs.dropLast ++ [Char.ofNat 10] = cs :=
      List.dropLast_append_getLast? _ (Option.mem_def.mpr h)
    rw [if_pos (by rw [hnl] at h; exact h)]
    constructor
    · intro hq
      right
      refine ⟨⟨cs.dropLast⟩, ?_, hq⟩
      have : String.mk cs = String.mk (cs.dropLast ++ ['\n']) := by
        rw [← hnl]
        exact (congrArg String.mk hcs).symm
      exact this
    · rintro (hq | ⟨⟨ts⟩, hteq, htq⟩)
      · exfalso
        have hmem : Char.ofNat 10 ∈ cs := by
          rw [← hcs]
          simp
        exact Discovery.quad_no_newline cs hq hmem
      · have hd : cs = ts ++ ['\n'] := congrArg String.data hteq
        have : cs.dropLast = ts := by
          rw [hd]
          exact List.dropLast_concat
        rw [this]
        exact htq
  · have hnl : (Char.ofNat 10 : Char) = '\n' := by decide
    rw [if_neg (by rw [hnl] at h; exact h)]
    constructor
    · exact Or.inl
    · rintro (hq | ⟨⟨ts⟩, hteq, htq⟩)
      · exact hq
      · exfalso
        apply h
        have hd : cs = ts ++ ['\n'] := congrArg String.data hteq
        rw [hd, hnl]
        exact List.getLast?_concat ts
end HuePykit
